import Mathlib

/-!
Verification of the bounded-concurrency gather engine of `asynctor`
(`src/asynctor/aio.py`), as a shallow embedding.

A work item (coroutine) is modelled by its eventual outcome `Except e a`:
awaiting it either returns a value or raises an exception.  The cooperative
scheduler's nondeterminism is modelled by explicit *completion orders*: a task
group started over a list `todos` of `(index, item)` pairs is executed by
folding over a list `ord : List Nat` of positions into `todos`, the order in
which the started tasks reach completion.  Result writes and exception capture
happen in that completion order, exactly as in the `anyio` task group used by
the source.  An arbitrary (even incomplete) `ord` also covers the behaviours
where some sibling tasks are cancelled after a failure and never complete.
-/

namespace Asynctor

variable {α : Type} {β : Type} {ε : Type}

/-- One completion step of a task group (`BulkGather.runner`,
`src/asynctor/aio.py` lines 136-137 and `limited_runner` lines 139-143):
when the task at position `k` of `todos` finishes and its coroutine returned
`v`, it executes `self._results[index] = await coro`, i.e. writes `some v` at
its submission index; a task whose coroutine raised writes nothing.  The
capacity limiter taken by `limited_runner` only delays *when* the write
happens (admission control), which is absorbed into the completion order, so
both runners have the same write action. -/
def writeStep (todos : List (Nat × Except ε α)) (r : List (Option α)) (k : Nat) :
    List (Option α) :=
  match todos[k]? with
  | some (i, Except.ok v) => r.set i (some v)
  | _ => r

/-- Result-container contents after a task group over `todos` ran to the end
of completion order `ord`, starting from container `r`. -/
def groupResults (todos : List (Nat × Except ε α)) (r : List (Option α))
    (ord : List Nat) : List (Option α) :=
  ord.foldl (writeStep todos) r

/-- One exception-capture step of a task group: when the task at position `k`
of `todos` finishes and its coroutine raised `e`, the task group appends `e`
to the list of captured exceptions (the eventual `ExceptionGroup.exceptions`,
which `anyio` collects in completion order). -/
def errStep (todos : List (Nat × Except ε α)) (es : List ε) (k : Nat) : List ε :=
  match todos[k]? with
  | some (_, Except.error e) => es ++ [e]
  | _ => es

/-- Exceptions captured by a task group over `todos`, in completion order
`ord`.  A nonempty list means the group re-raises them as an
`ExceptionGroup` after all its tasks have finished. -/
def groupErrors (todos : List (Nat × Except ε α)) (ord : List Nat) : List ε :=
  ord.foldl (errStep todos) []

/-- `map_group` (`src/asynctor/aio.py` lines 105-129): opens one task group,
appends one `None` placeholder per scheduled todo when a growable results
container was supplied (`should_append`, line 125: the generator path), starts
one task per todo, and waits for the whole group.  Returns the final container
contents together with the captured exceptions. -/
def map_group (grow : Bool) (results : List (Option α))
    (todos : List (Nat × Except ε α)) (ord : List Nat) :
    List (Option α) × List ε :=
  let r0 := if grow then results ++ List.replicate todos.length none else results
  (groupResults todos r0 ord, groupErrors todos ord)

/-- `LengthFixedList.append` (`src/asynctor/aio.py` lines 100-102):
appending to the pre-allocated fixed-size result container unconditionally
raises `TypeError(f"LengthFixedList is fixed-size")`. -/
def LengthFixedList.append (l : List (Option α)) (x : Option α) :
    Except String (List (Option α)) :=
  Except.error "LengthFixedList is fixed-size"

/-- Chunking of `enumerate(coros)` performed by the sequence branch of
`BulkGather.only_start_new_one_after_last_batch_finish`
(`src/asynctor/aio.py` lines 183-187): `for start in range(0, total,
batch_size)` takes consecutive slices `islice(coros, start, start +
batch_size)`, so the todo list is cut into consecutive chunks of
`batch_size` elements, the last chunk possibly shorter.  `buf` is the chunk
being assembled and `cnt` its current length. -/
def seqChunksAux (k : Nat) (buf : List β) (cnt : Nat) : List β → List (List β)
  | [] => if buf.isEmpty then [] else [buf]
  | x :: xs =>
    if cnt + 1 == k then (buf ++ [x]) :: seqChunksAux k [] 0 xs
    else seqChunksAux k (buf ++ [x]) (cnt + 1) xs

/-- Consecutive chunks of exactly `k` elements (last chunk possibly shorter),
the wave partition of the sequence branch of strategy 3. -/
def seqChunks (k : Nat) (todos : List β) : List (List β) :=
  seqChunksAux k [] 0 todos

/-- Chunking performed by the generator branch of
`BulkGather.only_start_new_one_after_last_batch_finish`
(`src/asynctor/aio.py` lines 173-182): items are buffered into `todos` and
the buffer is flushed as one wave whenever `count % batch_size == 0`, where
`count` is the 0-based position of the item just buffered (`zip(
itertools.count(), enumerate(coros))`, and `enumerate` also counts from 0, so
`count` equals the first component of the pair); a nonempty leftover buffer is
flushed as a final wave.  Note the flush fires already at `count = 0`. -/
def genChunksAux (k : Nat) (buf : List (Nat × β)) :
    List (Nat × β) → List (List (Nat × β))
  | [] => if buf.isEmpty then [] else [buf]
  | p :: rest =>
    if p.1 % k == 0 then (buf ++ [p]) :: genChunksAux k [] rest
    else genChunksAux k (buf ++ [p]) rest

/-- Wave partition of the generator branch of strategy 3. -/
def genChunks (k : Nat) (todos : List (Nat × β)) : List (List (Nat × β)) :=
  genChunksAux k [] todos

/-- The wave loop of strategy 3 (`src/asynctor/aio.py` lines 170-187): the
waves are dispatched strictly one after another (`await map_group(...)` per
wave); in the generator branch (`gen = true`) the results container grows by
one `None` placeholder per item of a wave before that wave is dispatched
(line 177); if a wave's task group captured exceptions, the raised
`ExceptionGroup` propagates and the remaining waves are never started.
`ords` gives each wave its own completion order (`ords 0` for the first
dispatched wave, shifted for the rest).  Returns the final container, the
exceptions of the first failing wave (`[]` when none failed), and the
submission indices of each wave actually dispatched. -/
def runBatches (gen : Bool) (results : List (Option α)) (ords : Nat → List Nat) :
    List (List (Nat × Except ε α)) → List (Option α) × List ε × List (List Nat)
  | [] => (results, [], [])
  | w :: ws =>
    let r0 := if gen then results ++ List.replicate w.length none else results
    let res := groupResults w r0 (ords 0)
    let errs := groupErrors w (ords 0)
    if errs.isEmpty then
      let rest := runBatches gen res (fun i => ords (i + 1)) ws
      (rest.1, rest.2.1, (w.map Prod.fst) :: rest.2.2)
    else
      (res, errs, [w.map Prod.fst])

/-- `BulkGather.unlimit_gather` (`src/asynctor/aio.py` lines 156-160),
strategy 1: one `map_group` over all of `enumerate(coros)`, with the growable
container supplied exactly when the source is a generator. -/
def unlimit_gather (results : List (Option α)) (items : List (Except ε α))
    (is_generator : Bool) (ord : List Nat) : List (Option α) × List ε :=
  map_group is_generator results items.enum ord

/-- `anyio.CapacityLimiter(batch_size)` (`src/asynctor/aio.py` line 163): a
counting admission gate.  It bounds how many of the group's tasks may run
concurrently, which only constrains the timing of completions, i.e. which
completion orders are reachable; it never changes what a completed task
writes. -/
structure CapacityLimiter where
  capacity : Nat

/-- `BulkGather.run_in_capacity_limiter` (`src/asynctor/aio.py` lines
162-168), strategy 2: one `map_group` over all of `enumerate(coros)` where
every task additionally holds the capacity limiter around its payload
(`limited_runner`).  The limiter is pure admission control, so the group's
value-level behaviour is that of `map_group` under some completion order. -/
def run_in_capacity_limiter (results : List (Option α)) (batch_size : Nat)
    (items : List (Except ε α)) (is_generator : Bool) (ord : List Nat) :
    List (Option α) × List ε :=
  let _limiter : CapacityLimiter := ⟨batch_size⟩
  map_group is_generator results items.enum ord

/-- `BulkGather.only_start_new_one_after_last_batch_finish`
(`src/asynctor/aio.py` lines 170-187), strategy 3: partition the enumerated
items into waves (generator branch: flush at `count % batch_size == 0`;
sequence branch: slices of `batch_size`) and dispatch the waves one after
another. -/
def only_start_new_one_after_last_batch_finish (results : List (Option α))
    (batch_size : Nat) (items : List (Except ε α)) (is_generator : Bool)
    (ords : Nat → List Nat) : List (Option α) × List ε × List (List Nat) :=
  if is_generator then
    runBatches true results ords (genChunks batch_size items.enum)
  else
    runBatches false results ords (seqChunks batch_size items.enum)

/-- `BulkGather.run` (`src/asynctor/aio.py` lines 145-154): strategy
selection.  `is_generator` is `total == 0` (line 146); `batch_size == 0`
selects strategy 1, `wait_last == false` strategy 2, otherwise strategy 3.
For strategies 1 and 2 the single task group's started indices are recorded
as one wave. -/
def BulkGather.run (results : List (Option α)) (items : List (Except ε α))
    (batch_size : Nat) (wait_last : Bool) (total : Nat) (ords : Nat → List Nat) :
    List (Option α) × List ε × List (List Nat) :=
  let is_generator := total == 0
  if batch_size == 0 then
    let r := unlimit_gather results items is_generator (ords 0)
    (r.1, r.2, [items.enum.map Prod.fst])
  else if wait_last == false then
    let r := run_in_capacity_limiter results batch_size items is_generator (ords 0)
    (r.1, r.2, [items.enum.map Prod.fst])
  else
    only_start_new_one_after_last_batch_finish results batch_size items
      is_generator ords

/-- Failure surfaced by `bulk_gather`: either the synchronous `ParamsError`
from the `limit`/`batch_size` validation, or the single re-raised member of a
task group's `ExceptionGroup` (`raise e.exceptions[0] from e`). -/
inductive GatherError (ε : Type) where
  | paramsError : GatherError ε
  | itemError : ε → GatherError ε
deriving DecidableEq

/-- Decidable equality for `Except`, so that concrete runs of the model can
be checked by `decide`. -/
instance instDecidableEqExcept [DecidableEq ε] [DecidableEq α] :
    DecidableEq (Except ε α) := fun a b =>
  match a, b with
  | Except.ok x, Except.ok y =>
    if h : x = y then Decidable.isTrue (by rw [h])
    else Decidable.isFalse (by intro hc; cases hc; exact h rfl)
  | Except.ok _, Except.error _ => Decidable.isFalse (by intro hc; cases hc)
  | Except.error _, Except.ok _ => Decidable.isFalse (by intro hc; cases hc)
  | Except.error x, Except.error y =>
    if h : x = y then Decidable.isTrue (by rw [h])
    else Decidable.isFalse (by intro hc; cases hc; exact h rfl)

/-- Observable outcome of one `bulk_gather` call.  `result` is the returned
tuple (`Except.ok`) or the raised exception (`Except.error`); `waves` lists
the submission indices handed to each task group actually opened, in dispatch
order; `checkpoints` counts the explicit `await checkpoint()` calls
`bulk_gather` itself makes before returning; `deprecation_warnings` counts
the `DeprecationWarning`s it emits. -/
structure GatherResult (ε α : Type) where
  result : Except (GatherError ε) (List (Option α))
  waves : List (List Nat)
  checkpoints : Nat
  deprecation_warnings : Nat
deriving DecidableEq

/-- Validation and merging of the deprecated `limit` alias into `batch_size`
(`src/asynctor/aio.py` lines 246-256): with `limit` supplied (`is not None`)
and `batch_size` truthy, differing values raise `ParamsError` (modelled as
`none`) and equal values keep `batch_size` and emit one `DeprecationWarning`;
with `batch_size` falsy, `limit` replaces it silently.  Returns the batch
size to use and the number of warnings emitted. -/
def normalizeLimit (batch_size : Nat) (limit : Option Nat) : Option (Nat × Nat) :=
  match limit with
  | none => some (batch_size, 0)
  | some l =>
    if batch_size ≠ 0 then
      if batch_size ≠ l then none
      else some (batch_size, 1)
    else some (l, 0)

/-- The tail of `bulk_gather` (`src/asynctor/aio.py` lines 257-263): run the
engine; if the task groups captured exceptions (`out.2.1` nonempty, the raised
`ExceptionGroup`), re-raise its first member when `raises` is set, else
swallow it; finally return `tuple(results)`. -/
def finishGather (out : List (Option α) × List ε × List (List Nat))
    (raises : Bool) (warns : Nat) : GatherResult ε α :=
  match out.2.1 with
  | [] =>
    { result := Except.ok out.1, waves := out.2.2, checkpoints := 0,
      deprecation_warnings := warns }
  | e :: _ =>
    if raises then
      { result := Except.error (GatherError.itemError e), waves := out.2.2,
        checkpoints := 0, deprecation_warnings := warns }
    else
      { result := Except.ok out.1, waves := out.2.2, checkpoints := 0,
        deprecation_warnings := warns }

/-- `bulk_gather` (`src/asynctor/aio.py` lines 216-263).  `items` is the
submitted collection together with the outcome each work item would produce;
`is_gen` tells whether `len(coros)` raises `TypeError` (a generator source).
Control flow mirrors the source: known length 0 returns `()` after a single
checkpoint (lines 242-244); otherwise the deprecated `limit` alias is
validated and merged into `batch_size` (lines 246-256, `normalizeLimit`);
then `BulkGather.run` executes and its captured exceptions are handled per
`raises` (lines 257-263, `finishGather`). -/
def bulk_gather (items : List (Except ε α)) (is_gen : Bool) (batch_size : Nat)
    (wait_last : Bool) (raises : Bool) (limit : Option Nat)
    (ords : Nat → List Nat) : GatherResult ε α :=
  if is_gen = false ∧ items.length = 0 then
    { result := Except.ok [], waves := [], checkpoints := 1,
      deprecation_warnings := 0 }
  else
    let total := if is_gen then 0 else items.length
    let results : List (Option α) :=
      if is_gen then [] else List.replicate total none
    match normalizeLimit batch_size limit with
    | none =>
      { result := Except.error GatherError.paramsError, waves := [],
        checkpoints := 0, deprecation_warnings := 0 }
    | some (bs, warns) =>
      finishGather (BulkGather.run results items bs wait_last total ords)
        raises warns

/-- The exceptions the `BulkGather` engine captures for a given call
(the `ExceptionGroup.exceptions` of the first failing task group, in
completion order), before `bulk_gather` decides whether to re-raise. -/
def BulkGather.capturedErrors (items : List (Except ε α)) (is_gen : Bool)
    (batch_size : Nat) (wait_last : Bool) (ords : Nat → List Nat) : List ε :=
  let total := if is_gen then 0 else items.length
  let results : List (Option α) := if is_gen then [] else List.replicate total none
  (BulkGather.run results items batch_size wait_last total ords).2.1

/-- `gather` (`src/asynctor/aio.py` lines 266-272): collects its variadic
coroutines into a tuple (known length, so `is_gen = false`) and delegates to
`bulk_gather(coros, limit=limit)` with all other parameters left at their
defaults (`batch_size=0`, `wait_last=False`, `raises=True`). -/
def gather (items : List (Except ε α)) (limit : Option Nat)
    (ords : Nat → List Nat) : GatherResult ε α :=
  bulk_gather items false 0 false true limit ords

/-- The wave partition a call will use, as a function of the configuration
(strategies 1 and 2 open a single task group over everything; strategy 3
chunks).  Used to state which completion orders are *complete*: every task of
every wave finishes. -/
def waveplan (items : List (Except ε α)) (batch_size : Nat) (wait_last : Bool)
    (total : Nat) : List (List (Nat × Except ε α)) :=
  if batch_size == 0 then [items.enum]
  else if wait_last == false then [items.enum]
  else if total == 0 then genChunks batch_size items.enum
  else seqChunks batch_size items.enum

/-- `ords` is a family of completion orders in which every task of every
planned wave completes: for each dispatched wave `j`, every position of that
wave occurs in `ords j`.  Every run in which no task is cancelled has this
property (its completion orders are permutations of the wave positions). -/
def CompleteOrders (ws : List (List (Nat × Except ε α))) (ords : Nat → List Nat) :
    Prop :=
  ∀ j, j < ws.length → ∀ k, k < (ws.getD j []).length → k ∈ ords j

/-- The three regions of `start_tasks` (`src/asynctor/aio.py` lines 289-314)
that execute in the supervising task after the task group is entered:
starting the supplied tasks (`tg.start_soon`, lines 308-310), handing control
to the caller's guarded block (`yield`, line 312), and the shutdown
cancellation (`finally: tg.cancel_scope.cancel()`, line 314). -/
inductive StartTasksPhase where
  | startup : StartTasksPhase
  | guardedBlock : StartTasksPhase
  | shutdownCancel : StartTasksPhase
deriving DecidableEq

/-- Shield flags of the cancel scopes enclosing each phase of `start_tasks`,
innermost first, as read off the source's lexical structure: all three phases
sit inside `with anyio.CancelScope(shield=True):` (line 307), which itself
sits inside the task group's own (unshielded) cancel scope (line 306).  In
particular the `yield` at line 312 is inside the shielded scope. -/
def start_tasks_scopes : StartTasksPhase → List Bool
  | StartTasksPhase.startup => [true, false]
  | StartTasksPhase.guardedBlock => [true, false]
  | StartTasksPhase.shutdownCancel => [true, false]

/-- Delivery rule for an externally-requested cancellation: it is deferred
(not delivered at the task's checkpoints) exactly while some enclosing cancel
scope on the task's scope stack is shielded. -/
def cancelDeferred (scopes : List Bool) : Bool :=
  scopes.any (fun s => s)

/-! ### Basic lemmas about one task group -/

lemma length_writeStep (todos : List (Nat × Except ε α)) (r : List (Option α))
    (k : Nat) : (writeStep todos r k).length = r.length := by
  unfold writeStep
  cases hk : todos[k]? with
  | none => rfl
  | some p =>
    obtain ⟨j, x⟩ := p
    cases x <;> simp [List.length_set]

lemma length_groupResults (todos : List (Nat × Except ε α))
    (ord : List Nat) (r : List (Option α)) :
    (groupResults todos r ord).length = r.length := by
  induction ord generalizing r with
  | nil => rfl
  | cons k ord ih =>
    show (groupResults todos (writeStep todos r k) ord).length = r.length
    rw [ih, length_writeStep]

lemma getElem?_writeStep_ne (todos : List (Nat × Except ε α))
    (r : List (Option α)) (k i : Nat)
    (h : ∀ (v : α), todos[k]? ≠ some (i, Except.ok v)) :
    (writeStep todos r k)[i]? = r[i]? := by
  unfold writeStep
  cases hk : todos[k]? with
  | none => rfl
  | some p =>
    obtain ⟨j, x⟩ := p
    cases x with
    | ok v =>
      have hji : j ≠ i := by
        intro he
        subst he
        exact h v hk
      exact List.getElem?_set_ne hji
    | error e => rfl

lemma getElem?_groupResults_not_target (todos : List (Nat × Except ε α))
    (ord : List Nat) (i : Nat) (r : List (Option α))
    (h : ∀ (k : Nat) (v : α), todos[k]? ≠ some (i, Except.ok v)) :
    (groupResults todos r ord)[i]? = r[i]? := by
  induction ord generalizing r with
  | nil => rfl
  | cons k ord ih =>
    show (groupResults todos (writeStep todos r k) ord)[i]? = r[i]?
    rw [ih, getElem?_writeStep_ne todos r k i (fun v => h k v)]

lemma getElem?_groupResults_stable (todos : List (Nat × Except ε α))
    (ord : List Nat) (i : Nat) (v : α) (r : List (Option α))
    (huniq : ∀ (k : Nat) (v2 : α), todos[k]? = some (i, Except.ok v2) → v2 = v)
    (h0 : r[i]? = some (some v)) :
    (groupResults todos r ord)[i]? = some (some v) := by
  induction ord generalizing r with
  | nil => exact h0
  | cons k ord ih =>
    show (groupResults todos (writeStep todos r k) ord)[i]? = some (some v)
    apply ih
    unfold writeStep
    cases hk : todos[k]? with
    | none => exact h0
    | some p =>
      obtain ⟨j, x⟩ := p
      cases x with
      | ok v2 =>
        by_cases hji : j = i
        · subst hji
          have hv2 : v2 = v := huniq k v2 hk
          subst hv2
          have hlt : j < r.length := (List.getElem?_eq_some.mp h0).1
          exact List.getElem?_set_self hlt
        · rw [List.getElem?_set_ne hji]
          exact h0
      | error e => exact h0

lemma getElem?_groupResults_covered (todos : List (Nat × Except ε α))
    (ord : List Nat) (i : Nat) (v : α) (k : Nat) (r : List (Option α))
    (huniq : ∀ (k2 : Nat) (v2 : α), todos[k2]? = some (i, Except.ok v2) → v2 = v)
    (hk : todos[k]? = some (i, Except.ok v))
    (hmem : k ∈ ord) (hi : i < r.length) :
    (groupResults todos r ord)[i]? = some (some v) := by
  induction ord generalizing r with
  | nil => cases hmem
  | cons a ord ih =>
    show (groupResults todos (writeStep todos r a) ord)[i]? = some (some v)
    rcases List.mem_cons.mp hmem with hka | hka
    · subst hka
      have hw : writeStep todos r k = r.set i (some v) := by
        unfold writeStep
        rw [hk]
      rw [hw]
      exact getElem?_groupResults_stable todos ord i v _ huniq
        (by rw [List.getElem?_set_self hi])
    · exact ih _ hka (by rw [length_writeStep]; exact hi)

lemma getElem?_groupResults_sound (todos : List (Nat × Except ε α))
    (ord : List Nat) (items : List (Except ε α)) (r : List (Option α))
    (htodos : ∀ p, p ∈ todos → p ∈ items.enum)
    (hr : ∀ (i : Nat) (v : α), r[i]? = some (some v) → items[i]? = some (Except.ok v)) :
    ∀ (i : Nat) (v : α), (groupResults todos r ord)[i]? = some (some v) →
      items[i]? = some (Except.ok v) := by
  induction ord generalizing r with
  | nil => exact hr
  | cons k ord ih =>
    intro i v h
    refine ih (writeStep todos r k) ?_ i v h
    intro j w hw
    cases hk : todos[k]? with
    | none =>
      have hid : writeStep todos r k = r := by
        unfold writeStep
        rw [hk]
      rw [hid] at hw
      exact hr j w hw
    | some p =>
      obtain ⟨j2, x⟩ := p
      cases x with
      | ok v2 =>
        have hws : writeStep todos r k = r.set j2 (some v2) := by
          unfold writeStep
          rw [hk]
        rw [hws] at hw
        by_cases hj : j2 = j
        · subst hj
          rcases Nat.lt_or_ge j2 r.length with hlt | hge
          · rw [List.getElem?_set_self hlt] at hw
            cases hw
            have hmem : (j2, Except.ok w) ∈ items.enum :=
              htodos _ (List.mem_iff_getElem?.mpr ⟨k, hk⟩)
            obtain ⟨n, hn⟩ := List.mem_iff_getElem?.mp hmem
            rw [List.getElem?_enum] at hn
            cases he : items[n]? with
            | none => rw [he] at hn; cases hn
            | some a =>
              rw [he] at hn
              cases hn
              exact he
          · rw [List.set_eq_of_length_le hge] at hw
            exact hr j2 w hw
        · rw [List.getElem?_set_ne hj] at hw
          exact hr j w hw
      | error e =>
        have hid : writeStep todos r k = r := by
          unfold writeStep
          rw [hk]
        rw [hid] at hw
        exact hr j w hw

lemma groupErrors_foldl_init (todos : List (Nat × Except ε α)) (ord : List Nat)
    (h : ∀ (k j : Nat) (e : ε), todos[k]? ≠ some (j, Except.error e)) :
    ∀ es, ord.foldl (errStep todos) es = es := by
  induction ord with
  | nil => intro es; rfl
  | cons k ord ih =>
    intro es
    show ord.foldl (errStep todos) (errStep todos es k) = es
    have hstep : errStep todos es k = es := by
      unfold errStep
      cases hk : todos[k]? with
      | none => rfl
      | some p =>
        obtain ⟨j, x⟩ := p
        cases x with
        | ok v => rfl
        | error e => exact absurd hk (h k j e)
    rw [hstep, ih]

lemma groupErrors_eq_nil (todos : List (Nat × Except ε α)) (ord : List Nat)
    (h : ∀ (k j : Nat) (e : ε), todos[k]? ≠ some (j, Except.error e)) :
    groupErrors todos ord = [] :=
  groupErrors_foldl_init todos ord h []

/-! ### The chunk partitions concatenate back to the original todo list -/

lemma seqChunksAux_flatten (k : Nat) (l : List β) :
    ∀ (buf : List β) (cnt : Nat), (seqChunksAux k buf cnt l).flatten = buf ++ l := by
  induction l with
  | nil =>
    intro buf cnt
    unfold seqChunksAux
    cases hb : buf.isEmpty
    · simp
    · simp [List.isEmpty_iff.mp hb]
  | cons x xs ih =>
    intro buf cnt
    unfold seqChunksAux
    cases hc : (cnt + 1 == k)
    · simp only [Bool.false_eq_true, if_false]
      rw [ih]
      simp
    · simp only [if_true]
      rw [List.flatten_cons, ih]
      simp

lemma seqChunks_flatten (k : Nat) (l : List β) : (seqChunks k l).flatten = l := by
  simpa using seqChunksAux_flatten k l [] 0

lemma genChunksAux_flatten (k : Nat) (l : List (Nat × β)) :
    ∀ buf : List (Nat × β), (genChunksAux k buf l).flatten = buf ++ l := by
  induction l with
  | nil =>
    intro buf
    unfold genChunksAux
    cases hb : buf.isEmpty
    · simp
    · simp [List.isEmpty_iff.mp hb]
  | cons p rest ih =>
    intro buf
    unfold genChunksAux
    cases hc : (p.1 % k == 0)
    · simp only [Bool.false_eq_true, if_false]
      rw [ih]
      simp
    · simp only [if_true]
      rw [List.flatten_cons, ih]
      simp

lemma genChunks_flatten (k : Nat) (l : List (Nat × β)) :
    (genChunks k l).flatten = l := by
  simpa using genChunksAux_flatten k l []

/-! ### Profile of a partially written result container -/

/-- Shape of the result container during an all-successful run: the slots of
the first `off` submitted items already hold their values, the remaining
slots up to the container's current length `L` still hold the `None`
placeholder. -/
def partialResults (vs : List α) (off L : Nat) : List (Option α) :=
  (vs.take off).map some ++ List.replicate (L - off) none

lemma length_partialResults (vs : List α) (off L : Nat)
    (h1 : off ≤ vs.length) (h2 : off ≤ L) :
    (partialResults vs off L).length = L := by
  unfold partialResults
  rw [List.length_append, List.length_map, List.length_take, List.length_replicate]
  omega

lemma partialResults_zero (vs : List α) (L : Nat) :
    partialResults vs 0 L = List.replicate L none := by
  unfold partialResults
  simp

lemma partialResults_full (vs : List α) :
    partialResults vs vs.length vs.length = vs.map some := by
  unfold partialResults
  rw [List.take_length]
  simp

lemma partialResults_grow (vs : List α) (off m : Nat) :
    partialResults vs off off ++ List.replicate m none
      = partialResults vs off (off + m) := by
  unfold partialResults
  rw [List.append_assoc]
  congr 1
  have h1 : off - off = 0 := Nat.sub_self off
  have h2 : off + m - off = m := by omega
  rw [h1, h2]
  simp

lemma getElem?_partialResults_lt (vs : List α) (off L i : Nat)
    (hi : i < off) (hoff : off ≤ vs.length) :
    (partialResults vs off L)[i]? = Option.map some vs[i]? := by
  unfold partialResults
  rw [List.getElem?_append]
  have hlen : ((vs.take off).map some).length = off := by
    rw [List.length_map, List.length_take]
    omega
  rw [hlen]
  simp only [hi, if_true]
  rw [List.getElem?_map, List.getElem?_take]
  simp [hi]

lemma getElem?_partialResults_mid (vs : List α) (off L i : Nat)
    (h1 : off ≤ i) (h2 : i < L) (hoff : off ≤ vs.length) :
    (partialResults vs off L)[i]? = some none := by
  unfold partialResults
  rw [List.getElem?_append]
  have hlen : ((vs.take off).map some).length = off := by
    rw [List.length_map, List.length_take]
    omega
  rw [hlen]
  have hni : ¬ i < off := by omega
  simp only [hni, if_false]
  rw [List.getElem?_replicate]
  have : i - off < L - off := by omega
  simp [this]

lemma getElem?_partialResults_ge (vs : List α) (off L i : Nat)
    (h1 : L ≤ i) (h2 : off ≤ L) (hoff : off ≤ vs.length) :
    (partialResults vs off L)[i]? = none := by
  apply List.getElem?_eq_none
  rw [length_partialResults vs off L hoff h2]
  exact h1

/-! ### One wave of an all-successful run -/

lemma wave_entry (vs : List α) (w : List (Nat × Except ε α)) (off : Nat)
    (hw : ∀ k : Nat, k < w.length → w[k]? = ((vs.map Except.ok).enum)[off + k]?)
    (hlen : off + w.length ≤ vs.length) (k : Nat) (hk : k < w.length) :
    ∃ v : α, vs[off + k]? = some v ∧ w[k]? = some (off + k, Except.ok v) := by
  have hik : off + k < vs.length := by omega
  have hv : vs[off + k]? = some vs[off + k] :=
    List.getElem?_eq_some.mpr ⟨hik, rfl⟩
  refine ⟨vs[off + k], hv, ?_⟩
  rw [hw k hk, List.getElem?_enum, List.getElem?_map, hv]
  rfl

lemma wave_errors_nil (vs : List α) (w : List (Nat × Except ε α))
    (ord : List Nat) (off : Nat)
    (hw : ∀ k : Nat, k < w.length → w[k]? = ((vs.map Except.ok).enum)[off + k]?)
    (hlen : off + w.length ≤ vs.length) :
    groupErrors w ord = [] := by
  apply groupErrors_eq_nil
  intro k j e hkv
  by_cases hk : k < w.length
  · obtain ⟨v, _, hwk⟩ := wave_entry vs w off hw hlen k hk
    rw [hwk] at hkv
    cases hkv
  · rw [List.getElem?_eq_none (by omega)] at hkv
    cases hkv

lemma groupResults_wave (vs : List α) (w : List (Nat × Except ε α))
    (ord : List Nat) (off L : Nat)
    (hw : ∀ k : Nat, k < w.length → w[k]? = ((vs.map Except.ok).enum)[off + k]?)
    (hlen : off + w.length ≤ vs.length)
    (hL1 : off + w.length ≤ L) (hL2 : L ≤ vs.length)
    (hord : ∀ k : Nat, k < w.length → k ∈ ord) :
    groupResults w (partialResults vs off L) ord
      = partialResults vs (off + w.length) L := by
  apply List.ext_getElem?
  intro i
  by_cases h1 : i < off
  · rw [getElem?_groupResults_not_target]
    · rw [getElem?_partialResults_lt vs off L i h1 (by omega),
        getElem?_partialResults_lt vs (off + w.length) L i (by omega) (by omega)]
    · intro k v hkv
      by_cases hk : k < w.length
      · obtain ⟨v2, _, hwk⟩ := wave_entry vs w off hw hlen k hk
        rw [hwk] at hkv
        simp at hkv
        omega
      · rw [List.getElem?_eq_none (by omega)] at hkv
        cases hkv
  · by_cases h2 : i < off + w.length
    · have hk : i - off < w.length := by omega
      obtain ⟨v, hv, hwk⟩ := wave_entry vs w off hw hlen (i - off) hk
      have heq : off + (i - off) = i := by omega
      rw [heq] at hv hwk
      have huniq : ∀ (k2 : Nat) (v2 : α),
          w[k2]? = some (i, Except.ok v2) → v2 = v := by
        intro k2 v2 hkv2
        by_cases hk2 : k2 < w.length
        · obtain ⟨v3, hv3, hwk3⟩ := wave_entry vs w off hw hlen k2 hk2
          rw [hwk3] at hkv2
          simp at hkv2
          obtain ⟨hik2, hv23⟩ := hkv2
          rw [hik2, hv] at hv3
          cases hv3
          exact hv23.symm
        · rw [List.getElem?_eq_none (by omega)] at hkv2
          cases hkv2
      have hilen : i < (partialResults vs off L).length := by
        rw [length_partialResults vs off L (by omega) (by omega)]
        omega
      rw [getElem?_groupResults_covered w ord i v (i - off) _ huniq hwk
        (hord (i - off) hk) hilen]
      rw [getElem?_partialResults_lt vs (off + w.length) L i h2 (by omega), hv]
      rfl
    · rw [getElem?_groupResults_not_target]
      · by_cases h3 : i < L
        · rw [getElem?_partialResults_mid vs off L i (by omega) h3 (by omega),
            getElem?_partialResults_mid vs (off + w.length) L i (by omega) h3
              (by omega)]
        · rw [getElem?_partialResults_ge vs off L i (by omega) (by omega)
              (by omega),
            getElem?_partialResults_ge vs (off + w.length) L i (by omega)
              (by omega) (by omega)]
      · intro k v hkv
        by_cases hk : k < w.length
        · obtain ⟨v2, _, hwk⟩ := wave_entry vs w off hw hlen k hk
          rw [hwk] at hkv
          simp at hkv
          omega
        · rw [List.getElem?_eq_none (by omega)] at hkv
          cases hkv

/-! ### Unfolding one dispatched wave of the batch loop -/

lemma runBatches_cons_ok (gen : Bool) (R : List (Option α)) (ords : Nat → List Nat)
    (w : List (Nat × Except ε α)) (ws : List (List (Nat × Except ε α)))
    (herr : groupErrors w (ords 0) = []) :
    runBatches gen R ords (w :: ws)
      = ((runBatches gen
            (groupResults w
              (if gen then R ++ List.replicate w.length none else R) (ords 0))
            (fun i => ords (i + 1)) ws).1,
        (runBatches gen
            (groupResults w
              (if gen then R ++ List.replicate w.length none else R) (ords 0))
            (fun i => ords (i + 1)) ws).2.1,
        (w.map Prod.fst) ::
          (runBatches gen
            (groupResults w
              (if gen then R ++ List.replicate w.length none else R) (ords 0))
            (fun i => ords (i + 1)) ws).2.2) := by
  simp [runBatches, herr]

/-! ### An all-successful run writes every slot at its submission index -/

lemma runBatches_all_ok (vs : List α) (gen : Bool)
    (ws : List (List (Nat × Except ε α))) :
    ∀ (ords : Nat → List Nat) (off L : Nat),
    ((vs.map Except.ok).enum).drop off = ws.flatten →
    (∀ j, j < ws.length → ∀ k, k < (ws.getD j []).length → k ∈ ords j) →
    off ≤ L → L ≤ vs.length →
    (gen = true → L = off) → (gen = false → L = vs.length) →
    runBatches gen (partialResults vs off L) ords ws
      = (vs.map some, [], ws.map (fun w => w.map Prod.fst)) := by
  induction ws with
  | nil =>
    intro ords off L hjoin hords h1 h2 hg hng
    have hlen0 : vs.length - off = 0 := by
      have hcg := congrArg List.length hjoin
      rw [List.length_drop, List.enum_length, List.length_map] at hcg
      simpa using hcg
    have hoffeq : off = vs.length := by omega
    have hLeq : L = vs.length := by omega
    subst hoffeq
    subst hLeq
    show (partialResults vs vs.length vs.length, ([] : List ε), ([] : List (List Nat)))
      = (vs.map some, [], [])
    rw [partialResults_full]
  | cons w ws ih =>
    intro ords off L hjoin hords h1 h2 hg hng
    have hflat : ((vs.map Except.ok).enum).drop off = w ++ ws.flatten := by
      rw [hjoin, List.flatten_cons]
    have hlen2 : vs.length - off = w.length + ws.flatten.length := by
      have hcg := congrArg List.length hflat
      rw [List.length_drop, List.enum_length, List.length_map,
        List.length_append] at hcg
      exact hcg
    have hwvs : off + w.length ≤ vs.length := by omega
    have hw : ∀ k : Nat, k < w.length →
        w[k]? = ((vs.map Except.ok).enum)[off + k]? := by
      intro k hk
      have hget : w[k]? = (w ++ ws.flatten)[k]? := by
        rw [List.getElem?_append]
        simp [hk]
      rw [hget, ← hflat, List.getElem?_drop]
    have herrs : groupErrors w (ords 0) = [] :=
      wave_errors_nil vs w (ords 0) off hw hwvs
    have hord0 : ∀ k : Nat, k < w.length → k ∈ ords 0 := by
      intro k hk
      refine hords 0 (by simp) k ?_
      simpa using hk
    have hjoin2 : ((vs.map Except.ok).enum).drop (off + w.length) = ws.flatten := by
      rw [← List.drop_drop, hflat, List.drop_left]
    have hords2 : ∀ j, j < ws.length →
        ∀ k, k < (ws.getD j []).length → k ∈ (fun i => ords (i + 1)) j := by
      intro j hj k hk
      refine hords (j + 1) (by simp; omega) k ?_
      simpa using hk
    rw [runBatches_cons_ok gen _ ords w ws herrs]
    cases gen with
    | false =>
      have hL : L = vs.length := hng rfl
      have hres : groupResults w (partialResults vs off L) (ords 0)
          = partialResults vs (off + w.length) L := by
        exact groupResults_wave vs w (ords 0) off L hw hwvs (by omega) (by omega)
          hord0
      simp only [if_neg (by simp : ¬ (false = true))]
      rw [hres, ih (fun i => ords (i + 1)) (off + w.length) L hjoin2 hords2
        (by omega) (by omega) (by intro hc; cases hc) (fun _ => hL)]
      rfl
    | true =>
      have hL : L = off := hg rfl
      have hres : groupResults w
          (partialResults vs off L ++ List.replicate w.length none) (ords 0)
          = partialResults vs (off + w.length) (off + w.length) := by
        rw [hL, partialResults_grow]
        exact groupResults_wave vs w (ords 0) off (off + w.length) hw hwvs
          (by omega) (by omega) hord0
      simp only [if_true]
      rw [hres, ih (fun i => ords (i + 1)) (off + w.length) (off + w.length)
        hjoin2 hords2 (by omega) (by omega) (fun _ => rfl)
        (by intro hc; cases hc)]
      rfl

/-! ### The engine as a sequence of dispatched waves -/

lemma runBatches_singleton (gen : Bool) (R : List (Option α))
    (ords : Nat → List Nat) (w : List (Nat × Except ε α)) :
    runBatches gen R ords [w]
      = ((map_group gen R w (ords 0)).1, (map_group gen R w (ords 0)).2,
          [w.map Prod.fst]) := by
  cases h : (groupErrors w (ords 0)).isEmpty
  · simp [runBatches, map_group, h]
  · simp [runBatches, map_group, h, List.isEmpty_iff.mp h]

lemma BulkGather_run_eq (R : List (Option α)) (items : List (Except ε α))
    (bs : Nat) (wl : Bool) (total : Nat) (ords : Nat → List Nat) :
    BulkGather.run R items bs wl total ords
      = runBatches (total == 0) R ords (waveplan items bs wl total) := by
  unfold BulkGather.run waveplan unlimit_gather run_in_capacity_limiter
    only_start_new_one_after_last_batch_finish
  cases hbs : (bs == 0)
  · cases hwl : wl
    · simp [hbs, hwl, runBatches_singleton]
    · cases hg : (total == 0) <;> simp [hbs, hwl, hg]
  · simp [hbs, runBatches_singleton]

lemma waveplan_flatten (items : List (Except ε α)) (bs : Nat) (wl : Bool)
    (total : Nat) : (waveplan items bs wl total).flatten = items.enum := by
  unfold waveplan
  cases hbs : (bs == 0) <;> cases hwl : wl <;> cases hg : (total == 0) <;>
    simp [hbs, hwl, hg, seqChunks_flatten, genChunks_flatten]

/-! ### No write ever lands at a foreign index -/

lemma runBatches_sound (items : List (Except ε α)) (gen : Bool)
    (ws : List (List (Nat × Except ε α))) :
    ∀ (ords : Nat → List Nat) (R : List (Option α)),
    (∀ w, w ∈ ws → ∀ p, p ∈ w → p ∈ items.enum) →
    (∀ (i : Nat) (v : α), R[i]? = some (some v) → items[i]? = some (Except.ok v)) →
    ∀ (i : Nat) (v : α), (runBatches gen R ords ws).1[i]? = some (some v) →
      items[i]? = some (Except.ok v) := by
  induction ws with
  | nil => intro ords R hws hR i v h; exact hR i v h
  | cons w ws ih =>
    intro ords R hws hR i v h
    have hr0 : ∀ (i : Nat) (v : α),
        (if gen then R ++ List.replicate w.length none else R)[i]? = some (some v) →
        items[i]? = some (Except.ok v) := by
      intro i v hi
      cases gen with
      | false => exact hR i v hi
      | true =>
        simp only [if_true] at hi
        rw [List.getElem?_append] at hi
        by_cases hil : i < R.length
        · rw [if_pos hil] at hi
          exact hR i v hi
        · rw [if_neg hil, List.getElem?_replicate] at hi
          by_cases hir : i - R.length < w.length
          · rw [if_pos hir] at hi
            cases hi
          · rw [if_neg hir] at hi
            cases hi
    have hsound : ∀ (i : Nat) (v : α),
        (groupResults w (if gen then R ++ List.replicate w.length none else R)
          (ords 0))[i]? = some (some v) → items[i]? = some (Except.ok v) :=
      getElem?_groupResults_sound w (ords 0) items _
        (fun p hp => hws w (by simp) p hp) hr0
    cases hemp : (groupErrors w (ords 0)).isEmpty
    · have hfst : (runBatches gen R ords (w :: ws)).1
          = groupResults w (if gen then R ++ List.replicate w.length none else R)
            (ords 0) := by
        simp [runBatches, hemp]
      rw [hfst] at h
      exact hsound i v h
    · have hfst : (runBatches gen R ords (w :: ws)).1
          = (runBatches gen
              (groupResults w
                (if gen then R ++ List.replicate w.length none else R) (ords 0))
              (fun i => ords (i + 1)) ws).1 := by
        simp [runBatches, hemp]
      rw [hfst] at h
      exact ih (fun i => ords (i + 1)) _
        (fun w2 hw2 p hp => hws w2 (by simp [hw2]) p hp) hsound i v h

lemma run_sound (R : List (Option α)) (items : List (Except ε α)) (bs : Nat)
    (wl : Bool) (total : Nat) (ords : Nat → List Nat)
    (hR : ∀ (i : Nat) (v : α), R[i]? = some (some v) →
      items[i]? = some (Except.ok v)) :
    ∀ (i : Nat) (v : α),
      (BulkGather.run R items bs wl total ords).1[i]? = some (some v) →
      items[i]? = some (Except.ok v) := by
  rw [BulkGather_run_eq]
  refine runBatches_sound items (total == 0) (waveplan items bs wl total) ords R
    ?_ hR
  intro w hw p hp
  rw [← waveplan_flatten items bs wl total]
  exact List.mem_flatten.mpr ⟨w, hw, hp⟩

/-- Empty or placeholder-only initial containers hold no written value. -/
lemma init_container_sound (items : List (Except ε α)) (is_gen : Bool) (n : Nat) :
    ∀ (i : Nat) (v : α),
      ((if is_gen then [] else List.replicate n none) :
        List (Option α))[i]? = some (some v) →
      items[i]? = some (Except.ok v) := by
  intro i v h
  cases is_gen with
  | true => simp at h
  | false =>
    simp only [if_neg (by simp : ¬ (false = true)), List.getElem?_replicate] at h
    by_cases hin : i < n
    · rw [if_pos hin] at h
      cases h
    · rw [if_neg hin] at h
      cases h

/-! ### Length of the result container for known-length sources -/

lemma runBatches_length_nongen (ws : List (List (Nat × Except ε α))) :
    ∀ (ords : Nat → List Nat) (R : List (Option α)),
      (runBatches false R ords ws).1.length = R.length := by
  induction ws with
  | nil => intro ords R; rfl
  | cons w ws ih =>
    intro ords R
    cases hemp : (groupErrors w (ords 0)).isEmpty
    · have hfst : (runBatches false R ords (w :: ws)).1
          = groupResults w R (ords 0) := by
        simp [runBatches, hemp]
      rw [hfst, length_groupResults]
    · have hfst : (runBatches false R ords (w :: ws)).1
          = (runBatches false (groupResults w R (ords 0))
              (fun i => ords (i + 1)) ws).1 := by
        simp [runBatches, hemp]
      rw [hfst, ih, length_groupResults]

/-! ### Small facts about the two stages of bulk_gather -/

lemma normalizeLimit_none (bs : Nat) : normalizeLimit bs none = some (bs, 0) :=
  rfl

lemma normalizeLimit_conflict (bs l : Nat) (hbs : bs ≠ 0) (hne : bs ≠ l) :
    normalizeLimit bs (some l) = none := by
  simp [normalizeLimit, hbs, hne]

lemma normalizeLimit_equal (bs : Nat) (hbs : bs ≠ 0) :
    normalizeLimit bs (some bs) = some (bs, 1) := by
  simp [normalizeLimit, hbs]

lemma finishGather_no_raise (out : List (Option α) × List ε × List (List Nat))
    (warns : Nat) : (finishGather out false warns).result = Except.ok out.1 := by
  cases h : out.2.1 <;> simp [finishGather, h]

lemma finishGather_ok (out : List (Option α) × List ε × List (List Nat))
    (raises : Bool) (warns : Nat) (r : List (Option α))
    (h : (finishGather out raises warns).result = Except.ok r) : r = out.1 := by
  cases he : out.2.1 with
  | nil =>
    simp [finishGather, he] at h
    exact h.symm
  | cons e rest =>
    cases raises with
    | false =>
      simp [finishGather, he] at h
      exact h.symm
    | true => simp [finishGather, he] at h

lemma finishGather_raise (out : List (Option α) × List ε × List (List Nat))
    (warns : Nat) (e : ε) (rest : List ε) (he : out.2.1 = e :: rest) :
    (finishGather out true warns).result
      = Except.error (GatherError.itemError e) := by
  simp [finishGather, he]

lemma finishGather_warns (out : List (Option α) × List ε × List (List Nat))
    (raises : Bool) (w1 w2 : Nat) :
    finishGather out raises w1
      = { finishGather out raises w2 with deprecation_warnings := w1 } := by
  cases he : out.2.1 with
  | nil => simp [finishGather, he]
  | cons e rest => cases raises <;> simp [finishGather, he]

/-! ### All-successful runs at the engine level -/

lemma runBatches_all_ok_gen (vs : List α) (ws : List (List (Nat × Except ε α)))
    (ords : Nat → List Nat)
    (hjoin : ((vs.map (Except.ok : α → Except ε α)).enum) = ws.flatten)
    (hords : ∀ j, j < ws.length → ∀ k, k < (ws.getD j []).length → k ∈ ords j) :
    runBatches true ([] : List (Option α)) ords ws
      = (vs.map some, [], ws.map (fun w => w.map Prod.fst)) := by
  have h00 : ([] : List (Option α)) = partialResults vs 0 0 := by
    simp [partialResults]
  rw [h00]
  exact runBatches_all_ok vs true ws ords 0 0 (by simpa using hjoin)
    hords (Nat.le_refl 0) (Nat.zero_le _) (fun _ => rfl) (fun hc => by cases hc)

lemma runBatches_all_ok_nongen (vs : List α)
    (ws : List (List (Nat × Except ε α))) (ords : Nat → List Nat)
    (hjoin : ((vs.map (Except.ok : α → Except ε α)).enum) = ws.flatten)
    (hords : ∀ j, j < ws.length → ∀ k, k < (ws.getD j []).length → k ∈ ords j) :
    runBatches false (List.replicate vs.length (none : Option α)) ords ws
      = (vs.map some, [], ws.map (fun w => w.map Prod.fst)) := by
  rw [show List.replicate vs.length (none : Option α)
      = partialResults vs 0 vs.length from (partialResults_zero vs vs.length).symm]
  exact runBatches_all_ok vs false ws ords 0 vs.length (by simpa using hjoin)
    hords (Nat.zero_le _) (Nat.le_refl _) (fun hc => by cases hc) (fun _ => rfl)

lemma run_all_ok_gen (vs : List α) (bs : Nat) (wl : Bool) (ords : Nat → List Nat)
    (hords : CompleteOrders
      (waveplan (vs.map (Except.ok : α → Except ε α)) bs wl 0) ords) :
    BulkGather.run ([] : List (Option α))
        (vs.map (Except.ok : α → Except ε α)) bs wl 0 ords
      = (vs.map some, [],
        (waveplan (vs.map (Except.ok : α → Except ε α)) bs wl 0).map
          (fun w => w.map Prod.fst)) := by
  rw [BulkGather_run_eq]
  exact runBatches_all_ok_gen vs _ ords (waveplan_flatten _ bs wl 0).symm hords

lemma run_all_ok_nongen (vs : List α) (bs : Nat) (wl : Bool)
    (ords : Nat → List Nat) (hvs : vs ≠ [])
    (hords : CompleteOrders
      (waveplan (vs.map (Except.ok : α → Except ε α)) bs wl vs.length) ords) :
    BulkGather.run (List.replicate vs.length (none : Option α))
        (vs.map (Except.ok : α → Except ε α)) bs wl vs.length ords
      = (vs.map some, [],
        (waveplan (vs.map (Except.ok : α → Except ε α)) bs wl vs.length).map
          (fun w => w.map Prod.fst)) := by
  rw [BulkGather_run_eq]
  have hbeq : (vs.length == 0) = false := by
    cases vs with
    | nil => exact absurd rfl hvs
    | cons a tl => rfl
  rw [hbeq]
  exact runBatches_all_ok_nongen vs _ ords
    (waveplan_flatten _ bs wl vs.length).symm hords

/-! ### Composition lemmas at the bulk_gather level -/

lemma bulk_gather_all_ok (vs : List α) (is_gen : Bool) (bs : Nat)
    (wl raises : Bool) (ords : Nat → List Nat)
    (hords : CompleteOrders
      (waveplan (vs.map (Except.ok : α → Except ε α)) bs wl
        (if is_gen then 0 else vs.length)) ords) :
    (bulk_gather (vs.map (Except.ok : α → Except ε α)) is_gen bs wl raises
        none ords).result
      = Except.ok (vs.map some) := by
  cases is_gen with
  | true =>
    show (finishGather
      (BulkGather.run ([] : List (Option α))
        (vs.map (Except.ok : α → Except ε α)) bs wl 0 ords)
      raises 0).result = Except.ok (vs.map some)
    rw [run_all_ok_gen vs bs wl ords hords]
    rfl
  | false =>
    cases vs with
    | nil => rfl
    | cons a tl =>
      show (finishGather
        (BulkGather.run
          (List.replicate ((a :: tl).map (Except.ok : α → Except ε α)).length
            none)
          ((a :: tl).map (Except.ok : α → Except ε α)) bs wl
          ((a :: tl).map (Except.ok : α → Except ε α)).length ords)
        raises 0).result = Except.ok ((a :: tl).map some)
      rw [List.length_map]
      rw [run_all_ok_nongen (a :: tl) bs wl ords (by simp) hords]
      rfl

lemma bulk_gather_ok_shape (items : List (Except ε α)) (is_gen : Bool)
    (bs : Nat) (wl raises : Bool) (L : Option Nat) (ords : Nat → List Nat)
    (r : List (Option α))
    (hok : (bulk_gather items is_gen bs wl raises L ords).result = Except.ok r) :
    (is_gen = false ∧ items.length = 0 ∧ r = []) ∨
    (¬ (is_gen = false ∧ items.length = 0) ∧
      ∃ bs2 warns, normalizeLimit bs L = some (bs2, warns) ∧
        r = (BulkGather.run
              (if is_gen then [] else
                List.replicate (if is_gen then 0 else items.length) none)
              items bs2 wl (if is_gen then 0 else items.length) ords).1) := by
  unfold bulk_gather at hok
  by_cases h0 : is_gen = false ∧ items.length = 0
  · rw [if_pos h0] at hok
    left
    refine ⟨h0.1, h0.2, ?_⟩
    have h2 : Except.ok ([] : List (Option α)) = Except.ok r := hok
    cases h2
    rfl
  · rw [if_neg h0] at hok
    cases hnorm : normalizeLimit bs L with
    | none =>
      rw [hnorm] at hok
      simp at hok
    | some p =>
      obtain ⟨bs2, warns⟩ := p
      rw [hnorm] at hok
      right
      exact ⟨h0, bs2, warns, rfl, finishGather_ok _ raises warns r hok⟩

lemma bulk_gather_sound (items : List (Except ε α)) (is_gen : Bool) (bs : Nat)
    (wl raises : Bool) (L : Option Nat) (ords : Nat → List Nat)
    (r : List (Option α))
    (hok : (bulk_gather items is_gen bs wl raises L ords).result = Except.ok r) :
    ∀ (i : Nat) (v : α), r[i]? = some (some v) →
      items[i]? = some (Except.ok v) := by
  rcases bulk_gather_ok_shape items is_gen bs wl raises L ords r hok with
    ⟨_, _, hr⟩ | ⟨_, bs2, warns, _, hr⟩
  · subst hr
    intro i v h
    simp at h
  · subst hr
    exact run_sound _ items bs2 wl _ ords
      (init_container_sound items is_gen _)

lemma bulk_gather_no_raise (items : List (Except ε α)) (is_gen : Bool)
    (bs : Nat) (wl : Bool) (ords : Nat → List Nat) :
    ∃ r, (bulk_gather items is_gen bs wl false none ords).result
      = Except.ok r := by
  unfold bulk_gather
  by_cases h0 : is_gen = false ∧ items.length = 0
  · rw [if_pos h0]
    exact ⟨[], rfl⟩
  · rw [if_neg h0]
    exact ⟨_, finishGather_no_raise _ _⟩

/-- An input that is not a known-length empty sequence does not take the
early-return branch of `bulk_gather`. -/
lemma not_early (items : List (Except ε α)) (is_gen : Bool)
    (hne : is_gen = true ∨ items ≠ []) :
    ¬ (is_gen = false ∧ items.length = 0) := by
  rcases hne with h | h
  · rw [h]
    simp
  · rintro ⟨h1, hlen⟩
    exact h (List.length_eq_zero.mp hlen)

/-! ## Claims -/

/-- C1: for every submitted collection (sequence `is_gen = false` or generator
`is_gen = true`) and every combination of `batch_size`, `wait_last` and
`raises`, the result slot at index `i` holds the outcome of the i-th
submitted item regardless of completion order.  Formalised as (a) for an
all-successful collection the returned tuple equals the submitted values in
submission order, for *every* family of completion orders in which all tasks
finish, and (b) for every collection, every completion-order family and every
returned tuple, a slot holding a value can only hold the return value of the
work item with that submission index (no write ever lands at a foreign
slot). -/
theorem C1_submission_order_slots (vs : List α) (is_gen : Bool) (bs : Nat)
    (wl raises : Bool) (ords : Nat → List Nat)
    (hords : CompleteOrders
      (waveplan (vs.map (Except.ok : α → Except ε α)) bs wl
        (if is_gen then 0 else vs.length)) ords) :
    ((bulk_gather (vs.map (Except.ok : α → Except ε α)) is_gen bs wl raises
        none ords).result = Except.ok (vs.map some))
    ∧ ∀ (items : List (Except ε α)) (L : Option Nat) (ords2 : Nat → List Nat)
        (r : List (Option α)) (i : Nat) (v : α),
        (bulk_gather items is_gen bs wl raises L ords2).result = Except.ok r →
        r[i]? = some (some v) → items[i]? = some (Except.ok v) :=
  ⟨bulk_gather_all_ok vs is_gen bs wl raises ords hords,
   fun items L ords2 r i v hok hri =>
     bulk_gather_sound items is_gen bs wl raises L ords2 r hok i v hri⟩

/-- Witness for C1: three items under strategy 3 (`batch_size = 2`,
`wait_last = true`), with each wave completing in reversed order, still
produce the submission-ordered tuple. -/
theorem C1_submission_order_slots_witness :
    (bulk_gather ([Except.ok 10, Except.ok 20, Except.ok 30] :
        List (Except String Nat)) false 2 true true none
        (fun _ => [1, 0])).result
      = Except.ok [some 10, some 20, some 30] :=
  (C1_submission_order_slots [10, 20, 30] false 2 true true (fun _ => [1, 0])
    (by unfold CompleteOrders waveplan; decide)).1

/-- C2 (evaluation at the failing input): a lazy generator source of four
items with `batch_size = 2` and `wait_last = true` is dispatched as waves of
sizes `[1, 2, 1]` — the flush condition `count % batch_size == 0` fires
already at count 0, so the first wave holds a single item instead of the
claimed exactly-`batch_size` partition `[2, 2]`. -/
theorem C2_generator_wave_sizes :
    ((bulk_gather ([Except.ok 0, Except.ok 1, Except.ok 2, Except.ok 3] :
        List (Except String Nat)) true 2 true true none
        (fun _ => [0, 1])).waves).map List.length = [1, 2, 1]
    ∧ (bulk_gather ([Except.ok 0, Except.ok 1, Except.ok 2, Except.ok 3] :
        List (Except String Nat)) true 2 true true none
        (fun _ => [0, 1])).waves = [[0], [1, 2], [3]] :=
  ⟨rfl, rfl⟩

/-- C3 counterexample: two work items that both fail, with the item at
submission index 1 completing first.  Both failures are captured (in
completion order `["E1", "E0"]`), so the failure with the lowest submission
index among the captured failures is `"E0"` — but `bulk_gather` surfaces
`e.exceptions[0] = "E1"`, the failure that completed first in wall-clock
order, refuting the claimed index-order tie-break.  (The repository's own
`test_gather_raise` pins this behaviour to `asyncio.gather`, which raises the
earliest-completing failure.) -/
theorem C3_counterexample_completion_order :
    BulkGather.capturedErrors
        ([Except.error "E0", Except.error "E1"] : List (Except String Nat))
        false 0 false (fun _ => [1, 0]) = ["E1", "E0"]
    ∧ (bulk_gather
        ([Except.error "E0", Except.error "E1"] : List (Except String Nat))
        false 0 false true none (fun _ => [1, 0])).result
      = Except.error (GatherError.itemError "E1") :=
  ⟨rfl, rfl⟩

/-- C3 amended: when `raises = true` and the engine captured at least one
failure, `bulk_gather` surfaces exactly one exception — the *first captured*
failure of the failing task group, i.e. the earliest in completion order
(`e.exceptions[0]`), not the one with the lowest submission index — and it is
raised only after that task group has finished (with `wait_last`, waves after
the failing one are never started). -/
theorem C3_amended_first_captured_failure (items : List (Except ε α))
    (is_gen : Bool) (bs : Nat) (wl : Bool) (ords : Nat → List Nat)
    (e : ε) (rest : List ε)
    (hne : is_gen = true ∨ items ≠ [])
    (herr : BulkGather.capturedErrors items is_gen bs wl ords = e :: rest) :
    (bulk_gather items is_gen bs wl true none ords).result
      = Except.error (GatherError.itemError e) := by
  unfold bulk_gather
  rw [if_neg (not_early items is_gen hne)]
  exact finishGather_raise _ 0 e rest herr

/-- Witness for C3 amended: a single failing item is re-raised. -/
theorem C3_amended_first_captured_failure_witness :
    (bulk_gather ([Except.error "boom"] : List (Except String Nat)) false 0
        false true none (fun _ => [0])).result
      = Except.error (GatherError.itemError "boom") :=
  C3_amended_first_captured_failure [Except.error "boom"] false 0 false
    (fun _ => [0]) "boom" [] (Or.inr (by simp)) rfl

/-- C4: with `raises = false` (and no `limit` alias), `bulk_gather` returns
normally for every mix of succeeding and failing work items, every
`batch_size`/`wait_last` combination, both source kinds and every completion
behaviour; and every result slot whose work item failed holds `None` (a slot
of a wave never dispatched, possible for a lazy source after an earlier wave
failed, does not exist at all). -/
theorem C4_raises_false_never_raises (items : List (Except ε α))
    (is_gen : Bool) (bs : Nat) (wl : Bool) (ords : Nat → List Nat) :
    ∃ r, (bulk_gather items is_gen bs wl false none ords).result = Except.ok r
      ∧ ∀ (i : Nat) (e : ε), items[i]? = some (Except.error e) →
          (r[i]? = some none ∨ r[i]? = none) := by
  obtain ⟨r, hr⟩ := bulk_gather_no_raise items is_gen bs wl ords
  refine ⟨r, hr, ?_⟩
  intro i e hie
  cases hri : r[i]? with
  | none => exact Or.inr rfl
  | some o =>
    cases o with
    | none => exact Or.inl rfl
    | some v =>
      have hs := bulk_gather_sound items is_gen bs wl false none ords r hr i v hri
      rw [hie] at hs
      simp at hs

/-- Witness for C4: a failing item among successes is suppressed and its slot
stays `None`. -/
theorem C4_raises_false_never_raises_witness :
    ∃ r, (bulk_gather ([Except.ok 1, Except.error "x", Except.ok 3] :
        List (Except String Nat)) false 0 false false none
        (fun _ => [0, 1, 2])).result = Except.ok r
      ∧ (r[1]? = some none ∨ r[1]? = none) := by
  obtain ⟨r, h1, h2⟩ := C4_raises_false_never_raises
    ([Except.ok 1, Except.error "x", Except.ok 3] : List (Except String Nat))
    false 0 false (fun _ => [0, 1, 2])
  exact ⟨r, h1, h2 1 "x" rfl⟩

/-- C5 counterexample: with a known-length *empty* sequence, conflicting
truthy `batch_size = 5` and `limit = 6` do **not** raise `ParamsError` — the
empty-input early return runs first and yields `()`, refuting the claim's
"whenever". -/
theorem C5_counterexample_empty_sequence :
    (bulk_gather ([] : List (Except String Nat)) false 5 false true (some 6)
        (fun _ => [])).result = Except.ok []
    ∧ (bulk_gather ([] : List (Except String Nat)) false 5 false true (some 6)
        (fun _ => [])).result ≠ Except.error GatherError.paramsError :=
  ⟨rfl, fun h => nomatch h⟩

/-- C5 amended: for every input that is **not** a known-length empty sequence
(generator, or non-empty sequence), truthy unequal `batch_size`/`limit` raise
`ParamsError` synchronously with no task scheduled and no checkpoint; truthy
equal values proceed exactly as the `limit`-free call, with one deprecation
warning. -/
theorem C5_amended_limit_validation (items : List (Except ε α)) (is_gen : Bool)
    (bs l : Nat) (wl raises : Bool) (ords : Nat → List Nat)
    (hne : is_gen = true ∨ items ≠ []) (hbs : bs ≠ 0) (hl : l ≠ 0) :
    (bs ≠ l →
      bulk_gather items is_gen bs wl raises (some l) ords
        = { result := Except.error GatherError.paramsError, waves := [],
            checkpoints := 0, deprecation_warnings := 0 })
    ∧ (bs = l →
      bulk_gather items is_gen bs wl raises (some l) ords
        = { bulk_gather items is_gen bs wl raises none ords with
            deprecation_warnings := 1 }) := by
  constructor
  · intro hneq
    unfold bulk_gather
    rw [if_neg (not_early items is_gen hne), normalizeLimit_conflict bs l hbs hneq]
  · intro heq
    subst heq
    unfold bulk_gather
    rw [if_neg (not_early items is_gen hne), if_neg (not_early items is_gen hne)]
    rw [normalizeLimit_equal bs hbs]
    exact finishGather_warns _ raises 1 0

/-- Witness for C5 amended: conflict raises, agreement proceeds with one
warning. -/
theorem C5_amended_limit_validation_witness :
    (bulk_gather ([Except.ok 1] : List (Except String Nat)) false 2 false true
        (some 3) (fun _ => [0])
      = { result := Except.error GatherError.paramsError, waves := [],
          checkpoints := 0, deprecation_warnings := 0 })
    ∧ (bulk_gather ([Except.ok 1] : List (Except String Nat)) false 2 false
        true (some 2) (fun _ => [0])
      = { bulk_gather ([Except.ok 1] : List (Except String Nat)) false 2 false
            true none (fun _ => [0]) with deprecation_warnings := 1 }) := by
  constructor
  · exact (C5_amended_limit_validation ([Except.ok 1] : List (Except String Nat))
      false 2 3 false true (fun _ => [0]) (Or.inr (by simp)) (by decide)
      (by decide)).1 (by decide)
  · exact (C5_amended_limit_validation ([Except.ok 1] : List (Except String Nat))
      false 2 2 false true (fun _ => [0]) (Or.inr (by simp)) (by decide)
      (by decide)).2 rfl

/-- C6: a known-length empty sequence returns the empty tuple for every
`batch_size`/`wait_last`/`raises` combination, with no task group opened
(`waves = []`) and exactly one explicit checkpoint yielded before
returning. -/
theorem C6_empty_sequence_immediate (bs : Nat) (wl raises : Bool)
    (ords : Nat → List Nat) :
    bulk_gather ([] : List (Except ε α)) false bs wl raises none ords
      = { result := Except.ok [], waves := [], checkpoints := 1,
          deprecation_warnings := 0 } :=
  rfl

/-- C7: `gather` is a pure facade — for every tuple of work items and every
`limit`, it behaves exactly as `bulk_gather` with `batch_size := limit`-or-0,
`wait_last = false`, `raises = true` and a known total. -/
theorem C7_gather_is_facade (items : List (Except ε α)) (L : Option Nat)
    (ords : Nat → List Nat) :
    gather items L ords
      = bulk_gather items false (L.getD 0) false true none ords := by
  cases L with
  | none => rfl
  | some l =>
    by_cases h0 : ((false : Bool) = false ∧ items.length = 0)
    · unfold gather bulk_gather
      rw [if_pos h0, if_pos h0]
    · unfold gather bulk_gather
      rw [if_neg h0, if_neg h0]
      rfl

/-- C8 counterexample: the claim says that once control is yielded to the
caller's guarded block an external cancellation request is no longer
deferred; but the `yield` of `start_tasks` (line 312) executes *inside*
`with anyio.CancelScope(shield=True)` (line 307), so cancellation is still
deferred during the guarded block. -/
theorem C8_counterexample_shield_covers_yield :
    ¬ (cancelDeferred (start_tasks_scopes StartTasksPhase.guardedBlock)
        = false) := by
  decide

/-- C8 amended: the shielded cancel scope of `start_tasks` covers the whole
supervised block — task startup, the caller's guarded block and the shutdown
cancellation all run inside it, so an externally-requested cancellation is
deferred for the entire duration of `start_tasks`, not only during
startup. -/
theorem C8_amended_shield_covers_entire_block (p : StartTasksPhase) :
    cancelDeferred (start_tasks_scopes p) = true := by
  cases p <;> rfl

/-- C9: the empty-input early return runs before the `limit`-alias
validation: a known-length empty sequence returns `()` (with its single
checkpoint) for *any* `limit`, in particular `batch_size = 5, limit = 6`
never raises `ParamsError`. -/
theorem C9_empty_input_skips_limit_validation (wl raises : Bool)
    (ords : Nat → List Nat) :
    bulk_gather ([] : List (Except ε α)) false 5 wl raises (some 6) ords
      = { result := Except.ok [], waves := [], checkpoints := 1,
          deprecation_warnings := 0 }
    ∧ ∀ (bs : Nat) (L : Option Nat),
        (bulk_gather ([] : List (Except ε α)) false bs wl raises L ords).result
          ≠ Except.error GatherError.paramsError :=
  ⟨rfl, fun bs L h => nomatch h⟩

/-- C10: for a known-length sequence the returned tuple always has exactly as
many slots as submitted items — for every configuration, every `raises`
setting and every completion behaviour — and the fixed-size result container
rejects every `append` with the `TypeError` of `LengthFixedList`. -/
theorem C10_result_length_fixed (items : List (Except ε α)) (bs : Nat)
    (wl raises : Bool) (L : Option Nat) (ords : Nat → List Nat)
    (r : List (Option α))
    (hok : (bulk_gather items false bs wl raises L ords).result = Except.ok r) :
    r.length = items.length
    ∧ ∀ x, LengthFixedList.append r x
        = Except.error "LengthFixedList is fixed-size" := by
  refine ⟨?_, fun x => rfl⟩
  rcases bulk_gather_ok_shape items false bs wl raises L ords r hok with
    ⟨_, hlen, hr⟩ | ⟨hne, bs2, warns, _, hr⟩
  · subst hr
    rw [hlen]
    rfl
  · subst hr
    rw [BulkGather_run_eq]
    have hlen0 : items.length ≠ 0 := fun h => hne ⟨rfl, h⟩
    have hbeq : (items.length == 0) = false := by
      cases hl : items.length with
      | zero => exact absurd hl hlen0
      | succ n => rfl
    show (runBatches (items.length == 0)
      (List.replicate items.length (none : Option α)) ords
      (waveplan items bs2 wl items.length)).1.length = items.length
    rw [hbeq, runBatches_length_nongen]
    exact List.length_replicate _ _

/-- Witness for C10: two failing items under `raises = false` still return a
2-slot tuple whose `append` raises. -/
theorem C10_result_length_fixed_witness :
    ([none, none] : List (Option Nat)).length
      = ([Except.error "a", Except.error "b"] : List (Except String Nat)).length
    ∧ ∀ x, LengthFixedList.append ([none, none] : List (Option Nat)) x
        = Except.error "LengthFixedList is fixed-size" :=
  C10_result_length_fixed
    ([Except.error "a", Except.error "b"] : List (Except String Nat)) 0 false
    false none (fun _ => [0, 1]) [none, none] rfl

end Asynctor
